import Mathlib

/-!
Verification development for the share-using-gist Obsidian plugin
(`src/main.ts`).  Strings are modelled as `List Char`; JavaScript string
operations (`split('\n')`, `join('\n')`, `trim`, `replace`,
regular-expression scans) are embedded as executable Lean functions on
`List Char` that mirror the source semantics, including first-occurrence
replacement and `$`-pattern expansion in replacement strings.
-/

namespace GistShare

/-- Strings as character lists (JS strings). -/
abbrev Str := List Char

/-- Coerce a Lean string literal to the character-list model. -/
def str (s : String) : Str := s.data

/-- JS whitespace class `\s` (restricted to the ASCII members that occur in
this code base's data). -/
def jsWs (c : Char) : Bool :=
  c == ' ' || c == '\t' || c == '\n' || c == '\r' || c == '\x0b' || c == '\x0c'

/-- JS `String.prototype.trim`. -/
def trim (s : Str) : Str :=
  ((s.dropWhile jsWs).reverse.dropWhile jsWs).reverse

/-- JS `content.split('\n')`. -/
def splitLines : Str → List Str
  | [] => [[]]
  | c :: rest =>
    if c = '\n' then [] :: splitLines rest
    else
      match splitLines rest with
      | [] => [[c]]
      | l :: ls => (c :: l) :: ls

/-- JS `lines.join('\n')`. -/
def joinLines : List Str → Str
  | [] => []
  | [l] => l
  | l :: ls => l ++ '\n' :: joinLines ls

/-- Index of the first occurrence of `pat` in `s` (JS `indexOf`),
`none` when absent. -/
def findSubIdx (pat : Str) : Str → Option ℕ
  | [] => if pat.isEmpty then some 0 else none
  | c :: rest =>
    if pat.isPrefixOf (c :: rest) then some 0
    else
      match findSubIdx pat rest with
      | some i => some (i + 1)
      | none => none

/-- Whether `pat` occurs as a contiguous substring of `s`. -/
def hasSub (pat s : Str) : Bool := (findSubIdx pat s).isSome

/-- The backtick character (code point 96). -/
def backtickChar : Char := Char.ofNat 96

/-- The apostrophe character (code point 39). -/
def aposChar : Char := Char.ofNat 39

/-- JS replacement-string dollar-pattern expansion (dollar-dollar,
dollar-ampersand, dollar-backtick, dollar-apostrophe), as performed by
`String.prototype.replace`. -/
def dollarExpand (matched pre suf : Str) : Str → Str
  | [] => []
  | ['$'] => ['$']
  | '$' :: c :: t =>
    if c = '$' then '$' :: dollarExpand matched pre suf t
    else if c = '&' then matched ++ dollarExpand matched pre suf t
    else if c = backtickChar then pre ++ dollarExpand matched pre suf t
    else if c = aposChar then suf ++ dollarExpand matched pre suf t
    else '$' :: c :: dollarExpand matched pre suf t
  | c :: t => c :: dollarExpand matched pre suf t

/-- JS `s.replace(pat, rep)` with a string pattern: replaces the first
occurrence only, applying `$`-pattern expansion to `rep`; returns `s`
unchanged when `pat` does not occur. -/
def replaceFirst (s pat rep : Str) : Str :=
  match findSubIdx pat s with
  | none => s
  | some i =>
    let pre := s.take i
    let suf := s.drop (i + pat.length)
    pre ++ dollarExpand pat pre suf rep ++ suf

/-! ## Frontmatter handling (`parseFrontmatter`, `updateFrontmatter`) -/

/-- `FrontmatterData` interface of `main.ts`. -/
structure FrontmatterData where
  frontmatter : Str
  content : Str
  hasFrontmatter : Bool
deriving Repr, DecidableEq

/-- `QuickShareNotePlugin.parseFrontmatter`: recognizes a frontmatter block
when the document starts with `---` and a later line trims to `---`
(first such line wins); rebuilds the raw block as
`'---\n' + frontmatterLines.join('\n') + '\n---\n'`. -/
def parseFrontmatter (content : Str) : FrontmatterData :=
  if ¬ (str "---").isPrefixOf content then ⟨[], content, false⟩
  else
    match ((splitLines content).drop 1).findIdx? (fun l => trim l == str "---") with
    | none => ⟨[], content, false⟩
    | some j =>
      ⟨str "---\n" ++ joinLines (((splitLines content).drop 1).take j) ++ str "\n---\n",
       joinLines ((splitLines content).drop (j + 2)), true⟩

/-- The frontmatter key that stores the publish URL. -/
def gistUrlKey : Str := str "gist-publish-url:"

/-- Capture of `\s*(.+)` directly after an occurrence of the key, following
the JS regex's greedy/backtracking semantics: skip the maximal whitespace
run, then capture the non-newline run (which is nonempty because the first
character after a maximal whitespace run is not whitespace); if the
whitespace run reaches the end of the string, backtrack to capture the
last non-newline character of the run, if any. -/
def attemptCapture (t : Str) : Option Str :=
  let r := t.dropWhile jsWs
  if r.isEmpty then
    match t.reverse.dropWhile (· == '\n') with
    | [] => none
    | c :: _ => some [c]
  else some (r.takeWhile (· ≠ '\n'))

/-- First match of the regex `/gist-publish-url:\s*(.+)/` over `s`,
returning the capture group. -/
def scanGistUrl : Str → Option Str
  | [] => none
  | c :: rest =>
    if gistUrlKey.isPrefixOf (c :: rest) then
      match attemptCapture ((c :: rest).drop gistUrlKey.length) with
      | some cap => some cap
      | none => scanGistUrl rest
    else scanGistUrl rest

/-- Pure core of `QuickShareNotePlugin.updateFrontmatter`: `none` means the
early return (no write); `some out` means the file is rewritten to `out`. -/
def updateFrontmatter (fileContent url : Str) : Option Str :=
  let parsed := parseFrontmatter fileContent
  let skip : Bool := parsed.hasFrontmatter &&
    (match scanGistUrl parsed.frontmatter with
     | some cap => trim cap == trim url
     | none => false)
  if skip then none
  else some (
    if parsed.hasFrontmatter then
      let lines := splitLines parsed.frontmatter
      let contentLines := ((lines.drop 1).dropLast).dropLast
      let newLine := gistUrlKey ++ ' ' :: url
      let contentLines' :=
        match contentLines.findIdx? (fun l => gistUrlKey.isPrefixOf l) with
        | some i => contentLines.set i newLine
        | none => contentLines ++ [newLine]
      str "---\n" ++ joinLines (contentLines'.filter (fun l => !(trim l).isEmpty))
        ++ str "\n---\n" ++ parsed.content
    else
      str "---\ngist-publish-url: " ++ url ++ str "\n---\n" ++ fileContent)

/-! ## Adaptive debounce and rate-limit tracking -/

/-- `GitHubRateLimit` interface. -/
structure GitHubRateLimit where
  limit : ℤ
  remaining : ℤ
  reset : ℤ
  used : ℤ
deriving Repr, DecidableEq

/-- Rate-limit response headers; `none` models an absent
`x-ratelimit-*` header (values are modelled as already parsed integers). -/
structure RateLimitHeaders where
  limit : Option ℤ
  remaining : Option ℤ
  reset : Option ℤ
  used : Option ℤ
deriving Repr, DecidableEq

/-- State of the `AdaptiveDebounce` class (delays in milliseconds, as
rationals because of the 1.5× multiplier). -/
structure AdaptiveDebounce where
  baseDelay : ℚ
  currentDelay : ℚ
  rateLimit : GitHubRateLimit
deriving Repr, DecidableEq

/-- `AdaptiveDebounce` constructor. -/
def AdaptiveDebounce.init (baseDelay : ℚ) : AdaptiveDebounce :=
  ⟨baseDelay, baseDelay, ⟨5000, 5000, 0, 0⟩⟩

/-- Quota usage fraction `(limit − remaining) / limit`. -/
def usagePercentage (rl : GitHubRateLimit) : ℚ :=
  ((rl.limit : ℚ) - (rl.remaining : ℚ)) / (rl.limit : ℚ)

/-- `AdaptiveDebounce.adjustDebounceDelay`. -/
def adjustDebounceDelay (st : AdaptiveDebounce) : AdaptiveDebounce :=
  let u := usagePercentage st.rateLimit
  { st with currentDelay :=
      if u > 9/10 then st.baseDelay * 8
      else if u > 8/10 then st.baseDelay * 4
      else if u > 6/10 then st.baseDelay * 2
      else if u > 4/10 then st.baseDelay * (3/2)
      else st.baseDelay }

/-- `AdaptiveDebounce.updateRateLimit`: each field falls back to its
hard-coded default when the header is absent, then the delay is
re-adjusted. -/
def updateRateLimit (st : AdaptiveDebounce) (h : RateLimitHeaders) : AdaptiveDebounce :=
  adjustDebounceDelay
    { st with rateLimit :=
        ⟨h.limit.getD 5000, h.remaining.getD 5000, h.reset.getD 0, h.used.getD 0⟩ }

/-- Observable outcome of `QuickShareNotePlugin.checkRateLimitEmergency`:
the resulting auto-sync flag, whether settings were persisted, and the
delay of the scheduled re-enable timer (`none` = no timer scheduled; the
timer's action re-enables auto-sync and persists settings). -/
structure EmergencyOutcome where
  enableAutoSync : Bool
  settingsSaved : Bool
  reEnableDelayMs : Option ℤ
deriving Repr, DecidableEq

/-- `QuickShareNotePlugin.checkRateLimitEmergency`, as a pure function of
the relevant settings, the tracked rate limit, and the current time in
milliseconds. -/
def checkRateLimitEmergency (enableAdaptiveDebounce enableAutoSync : Bool)
    (emergencyDisableThreshold : ℤ) (rl : GitHubRateLimit) (nowMs : ℤ) :
    EmergencyOutcome :=
  if !enableAdaptiveDebounce then ⟨enableAutoSync, false, none⟩
  else if rl.remaining ≤ emergencyDisableThreshold then
    let delay := rl.reset * 1000 - nowMs
    ⟨false, true, if 0 < delay ∧ delay < 3600000 then some delay else none⟩
  else ⟨enableAutoSync, false, none⟩

/-! ## Markdown compatibility: options, results, detectors -/

/-- `compatibilityMode` setting. -/
inductive CompatibilityMode | githubNative | strict | permissive
deriving Repr, DecidableEq

/-- `handleMath` setting. -/
inductive MathMode | remove | convert | preserve
deriving Repr, DecidableEq

/-- `handlePluginContent` setting. -/
inductive PluginMode | remove | convert
deriving Repr, DecidableEq

/-- `tagConversionFormat` setting. -/
inductive TagFormat | inlineCode | boldLabels | plainText
deriving Repr, DecidableEq

/-- `commentConversionFormat` setting. -/
inductive CommentFormat | htmlComments | italicText
deriving Repr, DecidableEq

/-- `dataviewConversionFormat` setting. -/
inductive DataviewFormat | descriptiveBlocks | simpleBlocks
deriving Repr, DecidableEq

/-- `ConversionOptions` interface; the three format fields are optional in
the source and default inside the converters. -/
structure ConversionOptions where
  compatibilityMode : CompatibilityMode
  preserveWikilinks : Bool
  convertTags : Bool
  convertCallouts : Bool
  handleMath : MathMode
  handlePluginContent : PluginMode
  tagConversionFormat : Option TagFormat
  commentConversionFormat : Option CommentFormat
  dataviewConversionFormat : Option DataviewFormat
deriving Repr, DecidableEq

/-- One entry of `changedElements`. -/
structure ChangedElement where
  original : Str
  converted : Str
  type : String
deriving Repr, DecidableEq

/-- `ConversionResult` interface. -/
structure ConversionResult where
  convertedContent : Str
  warnings : List Str
  removedElements : List Str
  changedElements : List ChangedElement
deriving Repr, DecidableEq

/-- A conversion result carrying `content` unchanged and empty logs. -/
def emptyResult (content : Str) : ConversionResult := ⟨content, [], [], []⟩

/-- Decimal rendering of a count, for warning messages. -/
def natStr (n : ℕ) : Str := Nat.toDigits 10 n

/-- JS `\w` character class. -/
def isWordChar (c : Char) : Bool := c.isAlphanum || c == '_'

/-- Character class `[\w\-\/]` used for tag names. -/
def isTagChar (c : Char) : Bool := isWordChar c || c == '-' || c == '/'

/-- Does a predicate-described match begin at some position of `s`
(including the end-of-string position)?  Models `regex.test`. -/
def anyPos (p : Str → Bool) : Str → Bool
  | [] => p []
  | c :: rest => p (c :: rest) || anyPos p rest

/-- Match of `/\[\[(?!\!)[^\]]+\]\]/` at the head of `s`. -/
def wikiDetAt (s : Str) : Bool :=
  match s with
  | '[' :: '[' :: rest =>
    match rest with
    | '!' :: _ => false
    | _ =>
      let run := rest.takeWhile (· ≠ ']')
      !run.isEmpty &&
        (match rest.drop run.length with
         | ']' :: ']' :: _ => true
         | _ => false)
  | _ => false

/-- Detector of the `Obsidian Wikilinks` variant. -/
def detectWikilinks (s : Str) : Bool := anyPos wikiDetAt s

/-- Match of `/!\[\[[^\]]+\]\]/` at the head of `s`. -/
def imageDetAt (s : Str) : Bool :=
  match s with
  | '!' :: '[' :: '[' :: rest =>
    let run := rest.takeWhile (· ≠ ']')
    !run.isEmpty &&
      (match rest.drop run.length with
       | ']' :: ']' :: _ => true
       | _ => false)
  | _ => false

/-- Detector of the `Obsidian Image Wikilinks` variant. -/
def detectImageWikilinks (s : Str) : Bool := anyPos imageDetAt s

/-- Match of `/#[\w\-\/]+(?:\s|$|[^\w\-\/])/` at the head of `s` (the
trailing group is satisfied by any non-tag character or the end of the
string, which is automatic after the maximal greedy run). -/
def tagDetAt (s : Str) : Bool :=
  match s with
  | '#' :: rest =>
    let run := rest.takeWhile isTagChar
    !run.isEmpty &&
      (match rest.drop run.length with
       | [] => true
       | c :: _ => jsWs c || !isTagChar c)
  | _ => false

/-- Detector of the `Obsidian Tags` variant. -/
def detectTags (s : Str) : Bool := anyPos tagDetAt s

/-- Match of `/>\s*\[![\w\-]+\]/` at the head of `s`. -/
def calloutDetAt (s : Str) : Bool :=
  match s with
  | '>' :: rest =>
    let ws := rest.takeWhile jsWs
    (match rest.drop ws.length with
     | '[' :: '!' :: r =>
       let run := r.takeWhile (fun c => isWordChar c || c == '-')
       !run.isEmpty &&
         (match r.drop run.length with
          | ']' :: _ => true
          | _ => false)
     | _ => false)
  | _ => false

/-- Detector of the `Obsidian Callouts` variant. -/
def detectCallouts (s : Str) : Bool := anyPos calloutDetAt s

/-- Match of `/\$\$[\s\S]*?\$\$|\$[^$\n]+\$/` at the head of `s`. -/
def mathDetAt (s : Str) : Bool :=
  match s with
  | '$' :: rest =>
    (match rest with
     | '$' :: r => hasSub (str "$$") r
     | _ => false) ||
    (let run := rest.takeWhile (fun c => c ≠ '$' && c ≠ '\n')
     !run.isEmpty &&
       (match rest.drop run.length with
        | '$' :: _ => true
        | _ => false))
  | _ => false

/-- Detector of the `Math Expressions` variant. -/
def detectMath (s : Str) : Bool := anyPos mathDetAt s

/-- Match of `/%%[\s\S]*?%%/` at the head of `s`. -/
def commentDetAt (s : Str) : Bool :=
  match s with
  | '%' :: '%' :: rest => hasSub (str "%%") rest
  | _ => false

/-- Detector of the `Plugin Content` variant:
`/```(?:mermaid|dataview|ad-|query)/.test(content) || /%%[\s\S]*?%%/.test(content)`. -/
def detectPluginContent (s : Str) : Bool :=
  hasSub (str "```mermaid") s || hasSub (str "```dataview") s ||
    hasSub (str "```ad-") s || hasSub (str "```query") s ||
    anyPos commentDetAt s

/-! ## Regex scanners shared by the converters

Each `...TryAt` function decides whether the converter's regex matches at
the head of the given suffix and returns the whole match plus its capture
groups; the greedy/lazy quantifier behaviour of the JS engine has been
resolved into the deterministic outcome described in each doc comment.
`scanMatchesAux` models `regex.exec` iteration with the `g` flag over an
unchanging subject string; `execLoop` models the loops of the source that
call `exec` while mutating the subject between calls (the stale
`lastIndex` is applied to the updated string, exactly as in JS).  The fuel
argument bounds the number of iterations; it is sufficient for every
terminating run of the source loops. -/

/-- Scan for successive non-overlapping matches, restarting after each
match at its end, as `exec` with the `g` flag does. -/
def scanMatchesAux {α : Type} (tryAt : Str → Option (Str × α)) :
    ℕ → Str → List (Str × α)
  | 0, _ => []
  | _ + 1, [] => []
  | fuel + 1, c :: rest =>
    match tryAt (c :: rest) with
    | some (w, a) => (w, a) :: scanMatchesAux tryAt fuel ((c :: rest).drop w.length)
    | none => scanMatchesAux tryAt fuel rest

/-- Leftmost match of `tryAt`, with its index. -/
def scanFirst {α : Type} (tryAt : Str → Option (Str × α)) :
    Str → Option (ℕ × Str × α)
  | [] => none
  | c :: rest =>
    match tryAt (c :: rest) with
    | some (w, a) => some (0, w, a)
    | none =>
      match scanFirst tryAt rest with
      | some (j, w, a) => some (j + 1, w, a)
      | none => none

/-- Leftmost match at or after position `start`. -/
def findFrom {α : Type} (tryAt : Str → Option (Str × α)) (s : Str) (start : ℕ) :
    Option (ℕ × Str × α) :=
  match scanFirst tryAt (s.drop start) with
  | some (j, w, a) => some (start + j, w, a)
  | none => none

/-- `while ((m = regex.exec(result.convertedContent)) !== null)` loops that
mutate `result.convertedContent` inside the loop body: the regex keeps its
`lastIndex` across iterations and applies it to the updated string. -/
def execLoop {α : Type} (tryAt : Str → Option (Str × α))
    (act : ConversionResult → Str → α → ConversionResult) :
    ℕ → ConversionResult → ℕ → ConversionResult
  | 0, r, _ => r
  | fuel + 1, r, lastIndex =>
    match findFrom tryAt r.convertedContent lastIndex with
    | none => r
    | some (i, whole, a) => execLoop tryAt act fuel (act r whole a) (i + whole.length)

/-! ## Category converters -/

/-- Match of `/\[\[(?!\!)([^\]|]+)(?:\|([^\]]+))?\]\]/` at the head of `s`;
payload is `(target, alias)`. -/
def wikiTryAt (s : Str) : Option (Str × (Str × Option Str)) :=
  match s with
  | '[' :: '[' :: rest =>
    match rest with
    | '!' :: _ => none
    | _ =>
      let t := rest.takeWhile (fun c => c ≠ ']' && c ≠ '|')
      if t.isEmpty then none
      else
        match rest.drop t.length with
        | '|' :: r2 =>
          let a := r2.takeWhile (· ≠ ']')
          if a.isEmpty then none
          else
            match r2.drop a.length with
            | ']' :: ']' :: _ =>
              some (str "[[" ++ t ++ '|' :: a ++ str "]]", (t, some a))
            | _ => none
        | ']' :: ']' :: _ => some (str "[[" ++ t ++ str "]]", (t, none))
        | _ => none
  | _ => none

/-- `linkTarget.replace(/[\s\/]/g, '_')`. -/
def sanitizeFileName (t : Str) : Str :=
  t.map (fun c => if jsWs c || c == '/' then '_' else c)

/-- `MarkdownCompatibilityHandler.convertWikilinks`. -/
def convertWikilinks (content : Str) (o : ConversionOptions) : ConversionResult :=
  if o.preserveWikilinks then emptyResult content
  else
    let step : ConversionResult → Str × (Str × Option Str) → ConversionResult :=
      fun r m =>
        let originalText := m.1
        let linkTarget := m.2.1
        let displayText := match m.2.2 with | some a => a | none => linkTarget
        match o.compatibilityMode with
        | .strict =>
          { r with
            convertedContent := replaceFirst r.convertedContent originalText displayText,
            changedElements := r.changedElements ++ [⟨originalText, displayText, "wikilink"⟩] }
        | .githubNative =>
          let fileName := sanitizeFileName linkTarget
          let convertedText := '[' :: displayText ++ ']' :: '(' :: fileName ++ str ".md)"
          { r with
            convertedContent := replaceFirst r.convertedContent originalText convertedText,
            changedElements := r.changedElements ++ [⟨originalText, convertedText, "wikilink"⟩] }
        | .permissive =>
          let convertedText := str "**" ++ displayText ++ str "**"
          { r with
            convertedContent := replaceFirst r.convertedContent originalText convertedText,
            changedElements := r.changedElements ++ [⟨originalText, convertedText, "wikilink"⟩] }
    let r := (scanMatchesAux wikiTryAt content.length content).foldl step (emptyResult content)
    if r.changedElements.length > 0 || r.removedElements.length > 0 then
      { r with warnings := r.warnings ++
          [if o.compatibilityMode = .githubNative then
             str "Converted " ++ natStr r.changedElements.length ++
               str " wikilinks to standard markdown links"
           else
             str "Converted " ++ natStr r.changedElements.length ++
               str " wikilinks for compatibility"] }
    else r

/-- `MarkdownCompatibilityHandler.convertImageWikilinks`: a deliberate
pass-through (image replacement is delegated to the upload path). -/
def convertImageWikilinks (content : Str) (_o : ConversionOptions) : ConversionResult :=
  emptyResult content

/-- Match of `#[\w\-\/]+` followed by the always-satisfiable trailing
group, at the head of `t`. -/
def hashRunAt (t : Str) : Option Str :=
  match t with
  | '#' :: u =>
    let run := u.takeWhile isTagChar
    if run.isEmpty then none
    else
      match u.drop run.length with
      | [] => some ('#' :: run)
      | c :: _ => if jsWs c || !isTagChar c then some ('#' :: run) else none
  | _ => none

/-- Match of `/(?:^|\s)(#[\w\-\/]+)(?=\s|$|[^\w\-\/])/gm` at the head of
`s`: the `^` branch applies only at a line start; otherwise a whitespace
character is consumed.  Returns `(match0, match1)`. -/
def tagTryAt (lineStart : Bool) (s : Str) : Option (Str × Str) :=
  match (if lineStart then hashRunAt s else none) with
  | some r => some (r, r)
  | none =>
    match s with
    | c :: rest =>
      if jsWs c then
        match hashRunAt rest with
        | some r => some (c :: r, r)
        | none => none
      else none
    | [] => none

/-- One tag match: position, `match[0]`, `match[1]`. -/
structure TagMatch where
  index : ℕ
  whole : Str
  tag : Str
deriving Repr, DecidableEq

/-- Successive tag matches with their positions (a match never ends in a
newline, so the position after a match is never a line start). -/
def tagScanAux : ℕ → Bool → ℕ → Str → List TagMatch
  | 0, _, _, _ => []
  | _ + 1, _, _, [] => []
  | fuel + 1, lineStart, pos, c :: rest =>
    match tagTryAt lineStart (c :: rest) with
    | some (whole, tag) =>
      ⟨pos, whole, tag⟩ ::
        tagScanAux fuel false (pos + whole.length) ((c :: rest).drop whole.length)
    | none => tagScanAux fuel (c = '\n') (pos + 1) rest

/-- All matches of the tag regex over `s`. -/
def tagMatches (s : Str) : List TagMatch := tagScanAux s.length true 0 s

/-- JS `content.lastIndexOf('\n', i)`: index of the last newline at
position at most `i`, or `none`. -/
def lastIdxOfNl (s : Str) (i : ℕ) : Option ℕ :=
  let pre := s.take (i + 1)
  match pre.reverse.findIdx? (fun c => c == '\n') with
  | none => none
  | some j => some (pre.length - 1 - j)

/-- Setting-string name of a tag format. -/
def tagFormatName : TagFormat → Str
  | .inlineCode => str "inline-code"
  | .boldLabels => str "bold-labels"
  | .plainText => str "plain-text"

/-- `MarkdownCompatibilityHandler.convertTags`. -/
def convertTags (content : Str) (o : ConversionOptions) : ConversionResult :=
  if !o.convertTags then emptyResult content
  else if o.compatibilityMode = .githubNative then
    { emptyResult content with
      warnings := [str "Tags preserved in original format for GitHub Gist compatibility"] }
  else
    let step : ConversionResult → TagMatch → ConversionResult := fun r m =>
      let originalText := m.tag
      let tagName := originalText.drop 1
      let lineStart :=
        match lastIdxOfNl content m.index with
        | none => 0
        | some j => j + 1
      let hashOffset := (findSubIdx originalText m.whole).getD 0
      let beforeTag := (content.drop lineStart).take (m.index + hashOffset - lineStart)
      if (trim beforeTag).isEmpty then r
      else if o.compatibilityMode = .strict then
        { r with
          convertedContent := replaceFirst r.convertedContent originalText [],
          removedElements := r.removedElements ++ [str "Tag: " ++ originalText] }
      else
        let format := o.tagConversionFormat.getD .inlineCode
        let convertedText :=
          match format with
          | .boldLabels => str "**Tag:** " ++ tagName
          | .plainText => tagName
          | .inlineCode => str "`" ++ tagName ++ str "`"
        { r with
          convertedContent := replaceFirst r.convertedContent originalText convertedText,
          changedElements := r.changedElements ++ [⟨originalText, convertedText, "tag"⟩] }
    let r := (tagMatches content).foldl step (emptyResult content)
    if r.changedElements.length > 0 || r.removedElements.length > 0 then
      { r with warnings := r.warnings ++
          [str "Processed " ++ natStr (r.changedElements.length + r.removedElements.length) ++
           str " tags using " ++ tagFormatName (o.tagConversionFormat.getD .inlineCode) ++
           str " format"] }
    else r

/-- Lower-casing of a callout type (JS `toLowerCase`). -/
def toLowerStr (s : Str) : Str := s.map Char.toLower

/-- The callout emoji table of `convertCallouts`. -/
def calloutEmojis : List (Str × Str) :=
  [(str "note", str "📝"), (str "tip", str "💡"), (str "important", str "❗"),
   (str "warning", str "⚠️"), (str "caution", str "🚨"), (str "info", str "ℹ️"),
   (str "success", str "✅"), (str "question", str "❓"), (str "failure", str "❌"),
   (str "danger", str "🔥"), (str "bug", str "🐛"), (str "example", str "📋"),
   (str "quote", str "💬")]

/-- The star `((?:>.*\n?)*)` of the callout regex: greedily consume
quoted lines; returns (consumed, rest). -/
def quoteLinesAux : ℕ → Str → Str × Str
  | 0, s => ([], s)
  | fuel + 1, s =>
    match s with
    | '>' :: r =>
      let line := r.takeWhile (· ≠ '\n')
      (match r.drop line.length with
       | '\n' :: r2 =>
         let (g, rem) := quoteLinesAux fuel r2
         ('>' :: line ++ '\n' :: g, rem)
       | r2 => ('>' :: line, r2))
    | t => ([], t)

/-- Match of `/>\s*\[!([\w\-]+)\](?:\s+([^\n]*?))?\n?((?:>.*\n?)*)/gm` at
the head of `s`; payload is `(match1, match3)`.  The lazy title group
`([^\n]*?)` always succeeds with the empty capture (nothing after it can
fail), so `match[2]` is always falsy and is not returned. -/
def calloutTryAt (s : Str) : Option (Str × (Str × Str)) :=
  match s with
  | '>' :: r1 =>
    let ws1 := r1.takeWhile jsWs
    (match r1.drop ws1.length with
     | '[' :: '!' :: r3 =>
       let ty := r3.takeWhile (fun c => isWordChar c || c == '-')
       if ty.isEmpty then none
       else
         match r3.drop ty.length with
         | ']' :: r5 =>
           let ws2 := r5.takeWhile jsWs
           let r6 := r5.drop ws2.length
           let (grp, _) := quoteLinesAux r6.length r6
           some ('>' :: ws1 ++ '[' :: '!' :: ty ++ ']' :: ws2 ++ grp, (ty, grp))
         | _ => none
     | _ => none)
  | _ => none

/-- `MarkdownCompatibilityHandler.convertCallouts`. -/
def convertCallouts (content : Str) (o : ConversionOptions) : ConversionResult :=
  if !o.convertCallouts then emptyResult content
  else
    let step : ConversionResult → Str × (Str × Str) → ConversionResult := fun r m =>
      let originalText := m.1
      let calloutType := toLowerStr m.2.1
      let title := calloutType
      let calloutContent := m.2.2
      let emoji := (List.lookup calloutType calloutEmojis).getD (str "📄")
      let convertedText :=
        if o.compatibilityMode = .strict then
          str "> **" ++ title ++ str "**\n" ++ calloutContent
        else
          str "> " ++ emoji ++ str " **" ++ title ++ str "**\n" ++ calloutContent
      { r with
        convertedContent := replaceFirst r.convertedContent originalText convertedText,
        changedElements := r.changedElements ++ [⟨originalText, convertedText, "callout"⟩] }
    let r := (scanMatchesAux calloutTryAt content.length content).foldl step (emptyResult content)
    if r.changedElements.length > 0 then
      { r with warnings := r.warnings ++
          [str "Converted " ++ natStr r.changedElements.length ++
           str " callouts to blockquotes with emoji indicators"] }
    else r

/-- Match of `/\$\$([\s\S]*?)\$\$/` at the head of `s`; payload is the
inner capture. -/
def blockMathTryAt (s : Str) : Option (Str × Str) :=
  match s with
  | '$' :: '$' :: r =>
    (match findSubIdx (str "$$") r with
     | some i => some (str "$$" ++ r.take i ++ str "$$", r.take i)
     | none => none)
  | _ => none

/-- Match of `/\$([^$\n]+)\$/` at the head of `s`. -/
def inlineMathTryAt (s : Str) : Option (Str × Str) :=
  match s with
  | '$' :: r =>
    let run := r.takeWhile (fun c => c ≠ '$' && c ≠ '\n')
    if run.isEmpty then none
    else
      match r.drop run.length with
      | '$' :: _ => some ('$' :: run ++ ['$'], run)
      | _ => none
  | _ => none

/-- `MarkdownCompatibilityHandler.convertMath`: the block loop iterates
over the original content; the inline loop iterates over the mutating
converted content. -/
def convertMath (content : Str) (o : ConversionOptions) : ConversionResult :=
  let blockStep : ConversionResult → Str × Str → ConversionResult := fun r m =>
    match o.handleMath with
    | .remove =>
      { r with
        convertedContent := replaceFirst r.convertedContent m.1 [],
        removedElements := r.removedElements ++
          [str "Math block: " ++ m.1.take 50 ++ str "..."] }
    | .convert =>
      let convertedText := str "```math\n" ++ trim m.2 ++ str "\n```"
      { r with
        convertedContent := replaceFirst r.convertedContent m.1 convertedText,
        changedElements := r.changedElements ++ [⟨m.1, convertedText, "math-block"⟩] }
    | .preserve => r
  let r1 := (scanMatchesAux blockMathTryAt content.length content).foldl blockStep
    (emptyResult content)
  let inlineAct : ConversionResult → Str → Str → ConversionResult := fun r whole inner =>
    match o.handleMath with
    | .remove =>
      { r with
        convertedContent := replaceFirst r.convertedContent whole (trim inner),
        removedElements := r.removedElements ++ [str "Inline math: " ++ whole] }
    | .convert =>
      let convertedText := str "`" ++ trim inner ++ str "`"
      { r with
        convertedContent := replaceFirst r.convertedContent whole convertedText,
        changedElements := r.changedElements ++ [⟨whole, convertedText, "math-inline"⟩] }
    | .preserve => r
  let r2 := execLoop inlineMathTryAt inlineAct (r1.convertedContent.length + 1) r1 0
  let total := r2.changedElements.length + r2.removedElements.length
  if total > 0 then
    { r2 with warnings := r2.warnings ++
        [if o.compatibilityMode = .githubNative then
           str "Mathematical expressions preserved for GitHub native rendering"
         else
           str "Processed " ++ natStr total ++
             str " mathematical expressions - they may not render correctly in older platforms"] }
  else r2

/-- Match of `/```mermaid\n([\s\S]*?)\n```/` at the head of `s`. -/
def mermaidTryAt (s : Str) : Option (Str × Str) :=
  if (str "```mermaid\n").isPrefixOf s then
    let r := s.drop 11
    match findSubIdx (str "\n```") r with
    | some i => some (str "```mermaid\n" ++ r.take i ++ str "\n```", r.take i)
    | none => none
  else none

/-- Match of `/```dataview\n([\s\S]*?)\n```/` at the head of `s`. -/
def dataviewTryAt (s : Str) : Option (Str × Str) :=
  if (str "```dataview\n").isPrefixOf s then
    let r := s.drop 12
    match findSubIdx (str "\n```") r with
    | some i => some (str "```dataview\n" ++ r.take i ++ str "\n```", r.take i)
    | none => none
  else none

/-- Match of `/%%[\s\S]*?%%/` at the head of `s`; payload is the text
between the delimiters. -/
def commentTryAt (s : Str) : Option (Str × Str) :=
  match s with
  | '%' :: '%' :: r =>
    (match findSubIdx (str "%%") r with
     | some i => some (str "%%" ++ r.take i ++ str "%%", r.take i)
     | none => none)
  | _ => none

/-- Match of the admonition regex
`/```ad-([\w\-]+)\n(?:title: (.*)\n)?([\s\S]*?)\n```/` at the head of `s`;
payload is `(type, title group, content group)`.  The optional title
group participates when a full `title: ...` line follows and the lazy
body can still reach a closing fence; otherwise the engine backtracks to
the group being absent. -/
def admonTryAt (s : Str) : Option (Str × (Str × Option Str × Str)) :=
  if (str "```ad-").isPrefixOf s then
    let r0 := s.drop 6
    let ty := r0.takeWhile (fun c => isWordChar c || c == '-')
    if ty.isEmpty then none
    else
      match r0.drop ty.length with
      | '\n' :: r1 =>
        let withTitle : Option (Str × Str) :=
          if (str "title: ").isPrefixOf r1 then
            let r2 := r1.drop 7
            let tl := r2.takeWhile (· ≠ '\n')
            match r2.drop tl.length with
            | '\n' :: r3 =>
              (match findSubIdx (str "\n```") r3 with
               | some i => some (tl, r3.take i)
               | none => none)
            | _ => none
          else none
        (match withTitle with
         | some (tl, inner) =>
           some (str "```ad-" ++ ty ++ '\n' :: (str "title: " ++ tl) ++
                   '\n' :: inner ++ str "\n```",
                 (ty, some tl, inner))
         | none =>
           match findSubIdx (str "\n```") r1 with
           | some i =>
             some (str "```ad-" ++ ty ++ '\n' :: r1.take i ++ str "\n```",
                   (ty, none, r1.take i))
           | none => none)
      | _ => none
  else none

/-- `adContent.replace(/\n/g, '\n> ')`. -/
def nlIndent (s : Str) : Str :=
  s.flatMap (fun c => if c = '\n' then str "\n> " else [c])

/-- `MarkdownCompatibilityHandler.convertPluginContent`: mermaid (skipped
with a warning in github-native mode, iterating the original content),
then dataview, comments and admonitions, each iterating the mutating
converted content. -/
def convertPluginContent (content : Str) (o : ConversionOptions) : ConversionResult :=
  let r0 := emptyResult content
  let r1 :=
    if o.compatibilityMode ≠ .githubNative then
      let step : ConversionResult → Str × Str → ConversionResult := fun r m =>
        match o.handlePluginContent with
        | .remove =>
          { r with
            convertedContent := replaceFirst r.convertedContent m.1 [],
            removedElements := r.removedElements ++ [str "Mermaid diagram"] }
        | .convert =>
          let convertedText := str "**📊 Mermaid Diagram:**\n```\n" ++ m.2 ++ str "\n```"
          { r with
            convertedContent := replaceFirst r.convertedContent m.1 convertedText,
            changedElements := r.changedElements ++ [⟨m.1, convertedText, "mermaid"⟩] }
      (scanMatchesAux mermaidTryAt content.length content).foldl step r0
    else
      { r0 with warnings := r0.warnings ++
          [str "Mermaid diagrams preserved for GitHub native rendering"] }
  let dvAct : ConversionResult → Str → Str → ConversionResult := fun r whole queryContent =>
    match o.handlePluginContent with
    | .remove =>
      { r with
        convertedContent := replaceFirst r.convertedContent whole [],
        removedElements := r.removedElements ++ [str "Dataview query"] }
    | .convert =>
      let format := o.dataviewConversionFormat.getD .descriptiveBlocks
      let convertedText :=
        if format = .descriptiveBlocks then
          str "**📈 Dataview Query:**\n\n*This was a dynamic query that would have displayed data from your vault:*\n\n```sql\n"
            ++ queryContent ++ str "\n```"
        else
          str "**Dataview:**\n```sql\n" ++ queryContent ++ str "\n```"
      { r with
        convertedContent := replaceFirst r.convertedContent whole convertedText,
        changedElements := r.changedElements ++ [⟨whole, convertedText, "dataview"⟩] }
  let r2 := execLoop dataviewTryAt dvAct (r1.convertedContent.length + 1) r1 0
  let cmAct : ConversionResult → Str → Str → ConversionResult := fun r whole inner =>
    let commentContent := trim inner
    match o.compatibilityMode with
    | .githubNative =>
      let format := o.commentConversionFormat.getD .htmlComments
      let convertedText :=
        if format = .htmlComments then str "<!-- " ++ commentContent ++ str " -->"
        else str "*[" ++ commentContent ++ str "]*"
      { r with
        convertedContent := replaceFirst r.convertedContent whole convertedText,
        changedElements := r.changedElements ++ [⟨whole, convertedText, "comment"⟩] }
    | .strict =>
      { r with
        convertedContent := replaceFirst r.convertedContent whole [],
        removedElements := r.removedElements ++ [str "Obsidian comment"] }
    | .permissive =>
      let convertedText := str "*[Note: " ++ commentContent ++ str "]*"
      { r with
        convertedContent := replaceFirst r.convertedContent whole convertedText,
        changedElements := r.changedElements ++ [⟨whole, convertedText, "comment"⟩] }
  let r3 := execLoop commentTryAt cmAct (r2.convertedContent.length + 1) r2 0
  let adAct : ConversionResult → Str → Str × Option Str × Str → ConversionResult :=
    fun r whole a =>
      let adType := a.1
      let titleOpt := a.2.1
      let adContent := a.2.2
      match o.handlePluginContent with
      | .remove =>
        { r with
          convertedContent := replaceFirst r.convertedContent whole adContent,
          removedElements := r.removedElements ++ [str "Admonition: " ++ adType] }
      | .convert =>
        let title :=
          match titleOpt with
          | some t => if t.isEmpty then adType else t
          | none => adType
        let emoji :=
          if adType = str "warning" then str "⚠️"
          else if adType = str "note" then str "📝"
          else str "📄"
        let convertedText :=
          str "> " ++ emoji ++ str " **" ++ title ++ str "**\n> \n> " ++ nlIndent adContent
        { r with
          convertedContent := replaceFirst r.convertedContent whole convertedText,
          changedElements := r.changedElements ++ [⟨whole, convertedText, "admonition"⟩] }
  let r4 := execLoop admonTryAt adAct (r3.convertedContent.length + 1) r3 0
  let total := r4.changedElements.length + r4.removedElements.length
  if total > 0 then
    { r4 with warnings := r4.warnings ++
        [str "Processed " ++ natStr total ++
         str " plugin-specific elements that may not render correctly in GitHub Gist"] }
  else r4

/-! ## Variant registry, conversion pipeline, compatibility analysis -/

/-- `MarkdownVariant` interface. -/
structure MarkdownVariant where
  name : String
  description : String
  detector : Str → Bool
  converter : Str → ConversionOptions → ConversionResult

/-- Registry entry `Obsidian Wikilinks`. -/
def wikilinkVariant : MarkdownVariant :=
  ⟨"Obsidian Wikilinks", "Internal links using [[]] syntax",
   detectWikilinks, convertWikilinks⟩

/-- Registry entry `Obsidian Image Wikilinks`. -/
def imageWikilinkVariant : MarkdownVariant :=
  ⟨"Obsidian Image Wikilinks", "Image embeds using ![[]] syntax",
   detectImageWikilinks, convertImageWikilinks⟩

/-- Registry entry `Obsidian Tags`. -/
def tagVariant : MarkdownVariant :=
  ⟨"Obsidian Tags", "Tags using #hashtag syntax", detectTags, convertTags⟩

/-- Registry entry `Obsidian Callouts`. -/
def calloutVariant : MarkdownVariant :=
  ⟨"Obsidian Callouts", "Callouts using > [!type] syntax",
   detectCallouts, convertCallouts⟩

/-- Registry entry `Math Expressions`. -/
def mathVariant : MarkdownVariant :=
  ⟨"Math Expressions", "LaTeX math using $$ or $ syntax", detectMath, convertMath⟩

/-- Registry entry `Plugin Content`. -/
def pluginVariant : MarkdownVariant :=
  ⟨"Plugin Content", "Mermaid, Dataview, and other plugin syntax",
   detectPluginContent, convertPluginContent⟩

/-- `MarkdownCompatibilityHandler.initializeVariants`: the fixed, ordered
variant registry. -/
def variants : List MarkdownVariant :=
  [wikilinkVariant, imageWikilinkVariant, tagVariant, calloutVariant,
   mathVariant, pluginVariant]

/-- Loop body of `convertContent`: run the converter only when the
detector matches the progressively rewritten content, folding the result
into the accumulator. -/
def convertStep (o : ConversionOptions) (r : ConversionResult) (v : MarkdownVariant) :
    ConversionResult :=
  if v.detector r.convertedContent then
    let cr := v.converter r.convertedContent o
    ⟨cr.convertedContent, r.warnings ++ cr.warnings,
     r.removedElements ++ cr.removedElements,
     r.changedElements ++ cr.changedElements⟩
  else r

/-- `MarkdownCompatibilityHandler.convertContent`. -/
def convertContent (content : Str) (o : ConversionOptions) : ConversionResult :=
  variants.foldl (convertStep o) (emptyResult content)

/-- JS `Math.round` (round half towards positive infinity). -/
def jsRound (q : ℚ) : ℤ := ⌊q + 1/2⌋

/-- `MarkdownCompatibilityHandler.calculateCompatibilityScore`. -/
def calculateCompatibilityScore (detectedVariants : List String) : ℤ :=
  let totalVariants : ℚ := variants.length
  let incompatibleVariants : ℚ := detectedVariants.length
  max 0 (jsRound ((totalVariants - incompatibleVariants) / totalVariants * 100))

/-- `MarkdownCompatibilityHandler.generateRecommendations`. -/
def generateRecommendations (detectedVariants : List String) : List String :=
  (if detectedVariants.contains "Obsidian Wikilinks" then
    ["Convert wikilinks to standard Markdown links for better compatibility"] else []) ++
  (if detectedVariants.contains "Obsidian Callouts" then
    ["Convert callouts to standard blockquotes with emoji indicators"] else []) ++
  (if detectedVariants.contains "Math Expressions" then
    ["Consider converting math expressions to code blocks or images"] else []) ++
  (if detectedVariants.contains "Plugin Content" then
    ["Plugin-specific content may not render correctly in GitHub Gist"] else [])

/-- `CompatibilityReport` interface. -/
structure CompatibilityReport where
  detectedVariants : List String
  conversionResults : ConversionResult
  compatibilityScore : ℤ
  recommendations : List String
deriving Repr, DecidableEq

/-- `MarkdownCompatibilityHandler.analyzeContent` (read-only analysis). -/
def analyzeContent (content : Str) : CompatibilityReport :=
  let detectedVariants :=
    (variants.filter (fun v => v.detector content)).map (·.name)
  ⟨detectedVariants, emptyResult content,
   calculateCompatibilityScore detectedVariants,
   generateRecommendations detectedVariants⟩

/-- The conversion pipeline as the specification words it: iterate the
registry once in order; for each category whose detector matches the
progressively rewritten content, invoke its converter and fold its result
in; a category whose detector does not match at its turn contributes
nothing. -/
def specConvert (vs : List MarkdownVariant) (content : Str) (o : ConversionOptions) :
    ConversionResult :=
  match vs with
  | [] => emptyResult content
  | v :: rest =>
    if v.detector content then
      let cr := v.converter content o
      let r := specConvert rest cr.convertedContent o
      ⟨r.convertedContent, cr.warnings ++ r.warnings,
       cr.removedElements ++ r.removedElements,
       cr.changedElements ++ r.changedElements⟩
    else specConvert rest content o

/-- The options produced by `prepareContentForPublishing` under the
default settings (`DEFAULT_SETTINGS`): github-native mode, wikilink and
tag conversion enabled, callouts untouched, math preserved, plugin
content converted; the three format fields are not passed. -/
def defaultConversionOptions : ConversionOptions :=
  ⟨.githubNative, false, true, false, .preserve, .convert, none, none, none⟩

/-- Options with every category's rewriting active: permissive mode,
wikilink/tag/callout conversion on, math removal, plugin conversion,
inline-code tag format. -/
def permissiveOpts : ConversionOptions :=
  ⟨.permissive, false, true, true, .remove, .convert, some .inlineCode, none, none⟩

/-! ## Lemmas about line splitting and joining -/

theorem splitLines_ne_nil (s : Str) : splitLines s ≠ [] := by
  induction s with
  | nil => simp [splitLines]
  | cons c rest ih =>
    simp only [splitLines]
    split
    · simp
    · cases h : splitLines rest with
      | nil => exact absurd h ih
      | cons l ls => simp

theorem joinLines_cons (l : Str) (ls : List Str) (h : ls ≠ []) :
    joinLines (l :: ls) = l ++ '\n' :: joinLines ls := by
  cases ls with
  | nil => exact absurd rfl h
  | cons x xs => rfl

theorem joinLines_splitLines (s : Str) : joinLines (splitLines s) = s := by
  induction s with
  | nil => rfl
  | cons c rest ih =>
    simp only [splitLines]
    by_cases hc : c = '\n'
    · rw [if_pos hc, joinLines_cons _ _ (splitLines_ne_nil rest), ih, hc]
      rfl
    · rw [if_neg hc]
      cases h : splitLines rest with
      | nil => exact absurd h (splitLines_ne_nil rest)
      | cons l ls =>
        cases ls with
        | nil =>
          have : joinLines [l] = rest := by rw [← h, ih]
          simpa [joinLines] using this
        | cons y ys =>
          have hys : (y :: ys : List Str) ≠ [] := by simp
          rw [joinLines_cons _ _ (by simp)]
          have : joinLines (l :: y :: ys) = rest := by rw [← h, ih]
          rw [joinLines_cons _ _ hys] at this
          simpa using this

theorem splitLines_append (a b : Str) (h : ∀ c ∈ a, c ≠ '\n') :
    splitLines (a ++ '\n' :: b) = a :: splitLines b := by
  induction a with
  | nil => simp [splitLines]
  | cons c rest ih =>
    have hc : c ≠ '\n' := h c (by simp)
    simp only [List.cons_append, splitLines, if_neg hc, List.append_eq]
    rw [ih (fun x hx => h x (by simp [hx]))]

theorem splitLines_join_append (l : List Str) (b : Str) (hl : l ≠ [])
    (hf : ∀ x ∈ l, ∀ c ∈ x, c ≠ '\n') :
    splitLines (joinLines l ++ '\n' :: b) = l ++ splitLines b := by
  induction l with
  | nil => exact absurd rfl hl
  | cons x xs ih =>
    cases xs with
    | nil =>
      simpa [joinLines] using splitLines_append x b (hf x (by simp))
    | cons y ys =>
      rw [joinLines_cons _ _ (by simp), List.append_assoc, List.cons_append]
      rw [splitLines_append x _ (hf x (by simp))]
      rw [ih (by simp) (fun z hz => hf z (by simp [hz]))]
      rfl

theorem joinLines_append (a b : List Str) (ha : a ≠ []) (hb : b ≠ []) :
    joinLines (a ++ b) = joinLines a ++ '\n' :: joinLines b := by
  induction a with
  | nil => exact absurd rfl ha
  | cons x xs ih =>
    cases xs with
    | nil => simp [joinLines, joinLines_cons x b hb]
    | cons y ys =>
      rw [List.cons_append, joinLines_cons _ _ (by simp),
        joinLines_cons _ _ (by simp), ih (by simp)]
      simp

/-! ## Lemmas about `trim` and whitespace runs -/

theorem trim_dropWhile (s : Str) : trim (s.dropWhile jsWs) = trim s := by
  unfold trim
  rw [List.dropWhile_idempotent]

theorem trim_cons_ne_nil (c : Char) (t : Str) (h : jsWs c = false) :
    trim (c :: t) ≠ [] := by
  unfold trim
  rw [List.dropWhile_cons, if_neg (by simp [h])]
  intro hcontra
  have h2 : ((c :: t).reverse.dropWhile jsWs) = [] := by
    simpa using hcontra
  have h3 : ∀ x ∈ (c :: t).reverse, jsWs x = true :=
    List.dropWhile_eq_nil_iff.mp h2
  have := h3 c (by simp)
  rw [h] at this
  exact Bool.false_ne_true this

theorem takeWhile_append_stop {p : Char → Bool} (a : Str) (c : Char) (t : Str)
    (ha : ∀ x ∈ a, p x = true) (hc : p c = false) :
    (a ++ c :: t).takeWhile p = a := by
  induction a with
  | nil => simp [List.takeWhile_cons, hc]
  | cons x xs ih =>
    have hx : p x = true := ha x (by simp)
    simp only [List.cons_append, List.takeWhile_cons, hx, if_true]
    rw [ih (fun z hz => ha z (by simp [hz]))]

theorem dropWhile_append_of_ne_nil {p : Char → Bool} (v t : Str)
    (h : v.dropWhile p ≠ []) : (v ++ t).dropWhile p = v.dropWhile p ++ t := by
  rw [List.dropWhile_append]
  simp [List.isEmpty_iff, h]

theorem dropWhile_ne_nil_of_trim_ne_nil (v : Str) (h : trim v ≠ []) :
    v.dropWhile jsWs ≠ [] := by
  intro hcontra
  apply h
  unfold trim
  rw [hcontra]
  rfl

/-! ## Index search and list surgery lemmas -/

theorem findIdx?_append_all_false {α : Type} (p : α → Bool) (l₁ l₂ : List α)
    (h : ∀ x ∈ l₁, p x = false) (i : ℕ) :
    List.findIdx? p (l₁ ++ l₂) i = List.findIdx? p l₂ (i + l₁.length) := by
  induction l₁ generalizing i with
  | nil => simp
  | cons x xs ih =>
    have hx : p x = false := h x (by simp)
    rw [List.cons_append, List.findIdx?_cons, if_neg (by simp [hx])]
    rw [ih (fun z hz => h z (by simp [hz]))]
    congr 1
    simp
    omega

theorem set_append_length {α : Type} (pre post : List α) (a v : α) :
    (pre ++ a :: post).set pre.length v = pre ++ v :: post := by
  induction pre with
  | nil => rfl
  | cons x xs ih => simp [List.set, ih]

/-! ## Shape of `parseFrontmatter` on well-formed documents -/

theorem parseFrontmatter_shape (inner : List Str) (body : Str)
    (h1 : ∀ l ∈ inner, ∀ c ∈ l, c ≠ '\n')
    (h2 : ∀ l ∈ inner, trim l ≠ str "---")
    (h3 : inner ≠ []) :
    parseFrontmatter (str "---\n" ++ joinLines inner ++ str "\n---\n" ++ body) =
      ⟨str "---\n" ++ joinLines inner ++ str "\n---\n", body, true⟩ := by
  have hd : str "---\n" ++ joinLines inner ++ str "\n---\n" ++ body
      = ['-', '-', '-'] ++ '\n' ::
          (joinLines inner ++ '\n' :: (['-', '-', '-'] ++ '\n' :: body)) := by
    simp [str]
  have hsplit : splitLines (str "---\n" ++ joinLines inner ++ str "\n---\n" ++ body)
      = str "---" :: (inner ++ str "---" :: splitLines body) := by
    rw [hd, splitLines_append _ _ (by decide),
      splitLines_join_append inner _ h3 h1,
      splitLines_append _ _ (by decide)]
    rfl
  have hpref : str "---" <+:
      (str "---\n" ++ joinLines inner ++ str "\n---\n" ++ body) :=
    ⟨'\n' :: (joinLines inner ++ str "\n---\n" ++ body), by simp [str]⟩
  have hfind : ((splitLines (str "---\n" ++ joinLines inner ++ str "\n---\n" ++ body)).drop 1).findIdx?
      (fun l => trim l == str "---") = some inner.length := by
    rw [hsplit]
    show (inner ++ str "---" :: splitLines body).findIdx? (fun l => trim l == str "---") 0
      = some inner.length
    rw [findIdx?_append_all_false _ inner _
      (fun x hx => by simpa using h2 x hx) 0]
    rw [List.findIdx?_cons, if_pos (by decide)]
    simp
  have ht : List.take inner.length (inner ++ str "---" :: splitLines body) = inner :=
    List.take_left inner (str "---" :: splitLines body)
  have hdrp : List.drop (inner.length + 1)
      (inner ++ str "---" :: splitLines body) = splitLines body := by
    have hgrp : inner ++ str "---" :: splitLines body
        = (inner ++ [str "---"]) ++ splitLines body := by
      simp
    have hlen : inner.length + 1 = (inner ++ [str "---"]).length := by
      simp
    rw [hgrp, hlen, List.drop_left]
  unfold parseFrontmatter
  rw [if_neg (by simpa using hpref), hfind]
  simp only [hsplit, List.drop_succ_cons, List.drop_zero, FrontmatterData.mk.injEq]
  refine ⟨?_, ?_, trivial⟩
  · rw [ht]
  · rw [hdrp, joinLines_splitLines]

/-! ## Claim C2: frontmatter split/rejoin round trip -/

/-- Claim C2, counterexample: the document `---\na: b\n---` has its
opening delimiter on line 1 and its closing delimiter alone on the last
line, with no inner delimiter lookalikes, yet
`frontmatter ++ content` appends a trailing newline and so does not
reproduce the document byte-for-byte. -/
theorem C2_roundtrip_counterexample :
    (parseFrontmatter (str "---\na: b\n---")).frontmatter ++
      (parseFrontmatter (str "---\na: b\n---")).content ≠ str "---\na: b\n---" := by
  decide

/-- Claim C2, amended: for every document whose frontmatter block is
well-formed and whose closing delimiter line is followed by a newline
(document shape `---\n<fields>\n---\n<body>`, with at least one field
line and no inner delimiter-lookalike lines), concatenating the raw
frontmatter block and the body returned by `parseFrontmatter` reproduces
the document byte-for-byte. -/
theorem C2_roundtrip (inner : List Str) (body : Str)
    (h1 : ∀ l ∈ inner, ∀ c ∈ l, c ≠ '\n')
    (h2 : ∀ l ∈ inner, trim l ≠ str "---")
    (h3 : inner ≠ []) :
    (parseFrontmatter (str "---\n" ++ joinLines inner ++ str "\n---\n" ++ body)).frontmatter ++
      (parseFrontmatter (str "---\n" ++ joinLines inner ++ str "\n---\n" ++ body)).content =
      str "---\n" ++ joinLines inner ++ str "\n---\n" ++ body ∧
    (parseFrontmatter (str "---\n" ++ joinLines inner ++ str "\n---\n" ++ body)).hasFrontmatter
      = true := by
  rw [parseFrontmatter_shape inner body h1 h2 h3]
  exact ⟨by simp, rfl⟩

/-- Witness for C2_roundtrip at a concrete document. -/
theorem C2_roundtrip_witness :
    (parseFrontmatter (str "---\ntitle: note\n---\nBody text")).frontmatter ++
      (parseFrontmatter (str "---\ntitle: note\n---\nBody text")).content =
      str "---\ntitle: note\n---\nBody text" :=
  (C2_roundtrip [str "title: note"] (str "Body text")
    (by decide) (by decide) (by decide)).1

/-! ## Claim C3: single ordered pass with re-evaluated detectors -/

theorem foldl_convertStep (o : ConversionOptions) (vs : List MarkdownVariant)
    (r : ConversionResult) :
    vs.foldl (convertStep o) r =
      ⟨(specConvert vs r.convertedContent o).convertedContent,
       r.warnings ++ (specConvert vs r.convertedContent o).warnings,
       r.removedElements ++ (specConvert vs r.convertedContent o).removedElements,
       r.changedElements ++ (specConvert vs r.convertedContent o).changedElements⟩ := by
  induction vs generalizing r with
  | nil => simp [specConvert, emptyResult]
  | cons v rest ih =>
    simp only [List.foldl_cons]
    rw [ih]
    by_cases hd : v.detector r.convertedContent
    · simp [convertStep, specConvert, hd, List.append_assoc]
    · simp [convertStep, specConvert, hd]

/-- Claim C3: `convertContent` iterates the registry exactly once in
fixed registry order, invoking a category's converter precisely when its
detector matches the progressively rewritten content at that point: it
equals the recursion `specConvert`, in which a category whose detector
fails at its turn contributes no entries to the warnings,
removed-elements or changed-elements of the final result. -/
theorem C3_single_ordered_pass (content : Str) (o : ConversionOptions) :
    convertContent content o = specConvert variants content o := by
  unfold convertContent
  rw [foldl_convertStep]
  simp [emptyResult]

/-! ## Claim C4: compatibility score formula -/

theorem calcScore_formula (dv : List String) :
    calculateCompatibilityScore dv =
      max 0 (jsRound (100 * ((variants.length : ℚ) - dv.length) / variants.length)) := by
  show max 0 (jsRound (((variants.length : ℚ) - (dv.length : ℚ)) / (variants.length : ℚ) * 100))
    = _
  congr 2
  ring

theorem calcScore_nil : calculateCompatibilityScore [] = 100 := by
  rw [calcScore_formula]
  norm_num [variants, jsRound]

theorem calcScore_full (dv : List String) (h : dv.length = variants.length) :
    calculateCompatibilityScore dv = 0 := by
  rw [calcScore_formula, h]
  norm_num [jsRound]

/-- Claim C4: the compatibility score is
`round(100 * (total - detected) / total)` clamped to at least 0; it is
100 when no category is detected and 0 when every registry category is
detected. -/
theorem C4_compatibility_score (content : Str) :
    (analyzeContent content).compatibilityScore =
      max 0 (jsRound (100 *
        ((variants.length : ℚ) - (analyzeContent content).detectedVariants.length) /
          variants.length)) ∧
    ((analyzeContent content).detectedVariants = [] →
      (analyzeContent content).compatibilityScore = 100) ∧
    ((analyzeContent content).detectedVariants.length = variants.length →
      (analyzeContent content).compatibilityScore = 0) := by
  refine ⟨?_, fun h => ?_, fun h => ?_⟩
  · show calculateCompatibilityScore ((analyzeContent content).detectedVariants) = _
    exact calcScore_formula _
  · show calculateCompatibilityScore ((analyzeContent content).detectedVariants) = 100
    rw [h]
    exact calcScore_nil
  · show calculateCompatibilityScore ((analyzeContent content).detectedVariants) = 0
    exact calcScore_full _ h

/-- Witness for C4_compatibility_score: score 100 on the empty document,
score 0 on a document exhibiting all six categories. -/
theorem C4_compatibility_score_witness :
    (analyzeContent (str "")).compatibilityScore = 100 ∧
    (analyzeContent
      (str "[[a]] ![[b.png]] x #t y\n> [!note] hi\n$m$\n%%c%%")).compatibilityScore = 0 := by
  constructor
  · exact (C4_compatibility_score (str "")).2.1 (by decide)
  · exact (C4_compatibility_score
      (str "[[a]] ![[b.png]] x #t y\n> [!note] hi\n$m$\n%%c%%")).2.2 (by decide)

/-! ## Claim C5: adaptive debounce multiplier thresholds -/

/-- Claim C5: for a rate-limit state with positive limit, the debounce
delay is the base delay below 40% usage, 1.5x for 40-60%, 2x for 60-80%,
4x for 80-90% and 8x above 90% (boundaries as the strict comparisons of
the source resolve them); with a 1000ms base delay, 85% usage yields
4000ms and 95% usage yields 8000ms. -/
theorem C5_debounce_multiplier (st : AdaptiveDebounce)
    (_hpos : 0 < st.rateLimit.limit) :
    (usagePercentage st.rateLimit < 2/5 →
      (adjustDebounceDelay st).currentDelay = st.baseDelay) ∧
    (2/5 < usagePercentage st.rateLimit ∧ usagePercentage st.rateLimit ≤ 3/5 →
      (adjustDebounceDelay st).currentDelay = st.baseDelay * (3/2)) ∧
    (3/5 < usagePercentage st.rateLimit ∧ usagePercentage st.rateLimit ≤ 4/5 →
      (adjustDebounceDelay st).currentDelay = st.baseDelay * 2) ∧
    (4/5 < usagePercentage st.rateLimit ∧ usagePercentage st.rateLimit ≤ 9/10 →
      (adjustDebounceDelay st).currentDelay = st.baseDelay * 4) ∧
    (9/10 < usagePercentage st.rateLimit →
      (adjustDebounceDelay st).currentDelay = st.baseDelay * 8) ∧
    (updateRateLimit (AdaptiveDebounce.init 1000)
      ⟨some 100, some 15, some 0, some 85⟩).currentDelay = 4000 ∧
    (updateRateLimit (AdaptiveDebounce.init 1000)
      ⟨some 100, some 5, some 0, some 95⟩).currentDelay = 8000 := by
  have hcd : ∀ t : AdaptiveDebounce, (adjustDebounceDelay t).currentDelay =
      (if usagePercentage t.rateLimit > 9/10 then t.baseDelay * 8
       else if usagePercentage t.rateLimit > 8/10 then t.baseDelay * 4
       else if usagePercentage t.rateLimit > 6/10 then t.baseDelay * 2
       else if usagePercentage t.rateLimit > 4/10 then t.baseDelay * (3/2)
       else t.baseDelay) := fun t => rfl
  refine ⟨fun h => ?_, fun h => ?_, fun h => ?_, fun h => ?_, fun h => ?_, by
    rw [updateRateLimit, hcd]; norm_num [usagePercentage, AdaptiveDebounce.init], by
    rw [updateRateLimit, hcd]; norm_num [usagePercentage, AdaptiveDebounce.init]⟩
  · rw [hcd, if_neg (by push_neg; linarith), if_neg (by push_neg; linarith),
      if_neg (by push_neg; linarith), if_neg (by push_neg; linarith)]
  · rw [hcd, if_neg (by push_neg; linarith [h.2]), if_neg (by push_neg; linarith [h.2]),
      if_neg (by push_neg; linarith [h.2]), if_pos (by show (_:ℚ) < _; linarith [h.1])]
  · rw [hcd, if_neg (by push_neg; linarith [h.2]), if_neg (by push_neg; linarith [h.2]),
      if_pos (by show (_:ℚ) < _; linarith [h.1])]
  · rw [hcd, if_neg (by push_neg; linarith [h.2]), if_pos (by show (_:ℚ) < _; linarith [h.1])]
  · rw [hcd, if_pos (by show (_:ℚ) < _; linarith [h])]

/-- Witness for C5_debounce_multiplier at 85% usage. -/
theorem C5_debounce_multiplier_witness :
    (adjustDebounceDelay ⟨1000, 1000, ⟨100, 15, 0, 85⟩⟩).currentDelay = 1000 * 4 := by
  have h := C5_debounce_multiplier ⟨1000, 1000, ⟨100, 15, 0, 85⟩⟩ (by norm_num)
  exact h.2.2.2.1 (by norm_num [usagePercentage])

/-! ## Claim C6: emergency disable and bounded re-enable timer -/

/-- Claim C6: with adaptive debounce on, whenever the tracked remaining
quota is at most the emergency threshold, the scheduler turns the
auto-sync flag off and persists the settings, and it schedules the
re-enable timer for the quota reset exactly when that reset lies strictly
between zero and one hour in the future; resets already past or beyond
one hour schedule no timer. -/
theorem C6_emergency_disable (autoSync : Bool) (threshold : ℤ)
    (rl : GitHubRateLimit) (nowMs : ℤ) (hrem : rl.remaining ≤ threshold) :
    (checkRateLimitEmergency true autoSync threshold rl nowMs).enableAutoSync = false ∧
    (checkRateLimitEmergency true autoSync threshold rl nowMs).settingsSaved = true ∧
    ((checkRateLimitEmergency true autoSync threshold rl nowMs).reEnableDelayMs
        = some (rl.reset * 1000 - nowMs) ↔
      0 < rl.reset * 1000 - nowMs ∧ rl.reset * 1000 - nowMs < 3600000) ∧
    (¬(0 < rl.reset * 1000 - nowMs ∧ rl.reset * 1000 - nowMs < 3600000) →
      (checkRateLimitEmergency true autoSync threshold rl nowMs).reEnableDelayMs = none) := by
  unfold checkRateLimitEmergency
  simp only [Bool.not_true, Bool.false_eq_true, if_false, if_pos hrem]
  by_cases hd : 0 < rl.reset * 1000 - nowMs ∧ rl.reset * 1000 - nowMs < 3600000
  · simp [hd]
  · simp [hd]

/-- Witness for C6_emergency_disable at the spec's example
(`remaining = 5`, threshold 100). -/
theorem C6_emergency_disable_witness :
    (checkRateLimitEmergency true true 100 ⟨5000, 5, 120, 0⟩ 100000).enableAutoSync
      = false ∧
    (checkRateLimitEmergency true true 100 ⟨5000, 5, 120, 0⟩ 100000).reEnableDelayMs
      = some 20000 := by
  have h := C6_emergency_disable true 100 ⟨5000, 5, 120, 0⟩ 100000 (by decide)
  exact ⟨h.1, h.2.2.1.mpr (by decide)⟩

/-! ## Claim C9: absent rate-limit headers reset the tracker -/

/-- Claim C9: `updateRateLimit` rebuilds the tracked rate limit from the
headers alone; each field whose header is absent becomes its hard-coded
default (limit 5000, remaining 5000, reset 0, used 0) regardless of the
previous state, and a response with no rate-limit headers at all resets
the tracker to the assumed-full quota. -/
theorem C9_absent_headers_reset (st : AdaptiveDebounce) (h : RateLimitHeaders) :
    (updateRateLimit st h).rateLimit =
      ⟨h.limit.getD 5000, h.remaining.getD 5000, h.reset.getD 0, h.used.getD 0⟩ ∧
    (updateRateLimit st ⟨none, none, none, none⟩).rateLimit = ⟨5000, 5000, 0, 0⟩ := by
  exact ⟨rfl, rfl⟩

/-! ## Claim C7: tag conversion and the line-start skip -/

/-- Claim C7: with tag conversion enabled in a non-native mode and
inline-code format, a mid-sentence `#important` is rewritten to
backticked `important`, while `#important` alone at the start of a line
is left completely untouched by the tag converter (the whole result is
the unchanged content with no warnings or log entries). -/
theorem C7_tag_line_start_skip :
    (convertTags (str "Remember to check #important tomorrow") permissiveOpts).convertedContent
      = str "Remember to check `important` tomorrow" ∧
    convertTags (str "Notes:\n#important\nmore text") permissiveOpts
      = emptyResult (str "Notes:\n#important\nmore text") := by
  exact ⟨rfl, rfl⟩

/-! ## Claim C1: converter idempotence under re-application -/

/-- Claim C1, counterexample: the image-wikilink category is in the
registry and its converter is an intentional pass-through, so its
rewritten output still satisfies its own detector — for the content
`![[diagram.png]]` (under the default options) the converter returns the
content unchanged and the detector still matches, refuting the claim
that every category's converter clears its own detector for every
options value. -/
theorem C1_idempotence_counterexample :
    imageWikilinkVariant ∈ variants ∧
    (imageWikilinkVariant.converter (str "![[diagram.png]]")
        defaultConversionOptions).convertedContent = str "![[diagram.png]]" ∧
    imageWikilinkVariant.detector
      ((imageWikilinkVariant.converter (str "![[diagram.png]]")
          defaultConversionOptions).convertedContent) = true := by
  refine ⟨List.mem_cons.2 (Or.inr (List.mem_cons_self _ _)), rfl, by decide⟩

/-- Claim C1, amended: for each registry category other than the
image-embed pass-through, with options that actually enable that
category's rewriting, the converter's output on representative content of
that category no longer satisfies the category's own detector (so a
second application detects no further matches there).  The universal
form fails: preserve-style options return content unchanged and
line-start tags are intentionally skipped. -/
theorem C1_idempotence_amended :
    (wikilinkVariant.converter (str "Link to [[Another Note]]")
        defaultConversionOptions).convertedContent
      = str "Link to [Another Note](Another_Note.md)" ∧
    wikilinkVariant.detector
      ((wikilinkVariant.converter (str "Link to [[Another Note]]")
          defaultConversionOptions).convertedContent) = false ∧
    tagVariant.detector
      ((tagVariant.converter (str "Remember to check #important tomorrow")
          permissiveOpts).convertedContent) = false ∧
    calloutVariant.detector
      ((calloutVariant.converter (str "> [!warning] Heads up\n> details")
          permissiveOpts).convertedContent) = false ∧
    mathVariant.detector
      ((mathVariant.converter (str "Inline $x+y$ here and $$a=b$$ block")
          permissiveOpts).convertedContent) = false ∧
    pluginVariant.detector
      ((pluginVariant.converter (str "before %%secret%% after")
          permissiveOpts).convertedContent) = false := by
  refine ⟨rfl, by decide, by decide, by decide, by decide, by decide⟩

/-! ## Claim C8: the publish-URL field is replaced in place -/

theorem splitLines_frontmatter (inner : List Str)
    (h1 : ∀ l ∈ inner, ∀ c ∈ l, c ≠ '\n') (h3 : inner ≠ []) :
    splitLines (str "---\n" ++ joinLines inner ++ str "\n---\n")
      = str "---" :: (inner ++ str "---" :: [[]]) := by
  have hd : str "---\n" ++ joinLines inner ++ str "\n---\n"
      = ['-', '-', '-'] ++ '\n' :: (joinLines inner ++ '\n' :: (['-', '-', '-'] ++ '\n' :: [])) := by
    simp [str]
  rw [hd, splitLines_append _ _ (by decide), splitLines_join_append inner _ h3 h1,
    splitLines_append _ _ (by decide)]
  rfl

theorem key_isPrefixOf_append (v : Str) : gistUrlKey.isPrefixOf (gistUrlKey ++ v) = true :=
  List.isPrefixOf_iff_prefix.mpr (List.prefix_append _ _)

theorem newLine_not_blank (url : Str) : (!(trim (gistUrlKey ++ ' ' :: url)).isEmpty) = true := by
  have h : trim (gistUrlKey ++ ' ' :: url) ≠ [] := by
    have : gistUrlKey ++ ' ' :: url = 'g' :: (str "ist-publish-url:" ++ ' ' :: url) := rfl
    rw [this]
    exact trim_cons_ne_nil 'g' _ (by decide)
  simp [List.isEmpty_eq_false, h]

/-- Claim C8: on a document whose frontmatter already holds exactly one
line starting with the publish-URL key, `updateFrontmatter` either
performs no write at all or writes a document whose frontmatter has that
line replaced in place by the new field line, all other non-blank field
lines preserved in their original order, and exactly one line starting
with the key (so re-publishing never duplicates the field). -/
theorem C8_no_field_duplication (pre post : List Str) (v body url : Str)
    (h1 : ∀ l ∈ pre ++ (gistUrlKey ++ v) :: post, ∀ c ∈ l, c ≠ '\n')
    (h2 : ∀ l ∈ pre ++ (gistUrlKey ++ v) :: post, trim l ≠ str "---")
    (hpre : ∀ l ∈ pre, gistUrlKey.isPrefixOf l = false)
    (hpost : ∀ l ∈ post, gistUrlKey.isPrefixOf l = false) :
    updateFrontmatter
        (str "---\n" ++ joinLines (pre ++ (gistUrlKey ++ v) :: post) ++ str "\n---\n" ++ body)
        url = none ∨
    (updateFrontmatter
        (str "---\n" ++ joinLines (pre ++ (gistUrlKey ++ v) :: post) ++ str "\n---\n" ++ body)
        url =
      some (str "---\n" ++
        joinLines (pre.filter (fun l => !(trim l).isEmpty) ++
          (gistUrlKey ++ ' ' :: url) :: post.filter (fun l => !(trim l).isEmpty)) ++
        str "\n---\n" ++ body) ∧
     (pre.filter (fun l => !(trim l).isEmpty) ++
        (gistUrlKey ++ ' ' :: url) :: post.filter (fun l => !(trim l).isEmpty)).countP
          (fun l => gistUrlKey.isPrefixOf l) = 1) := by
  have hne : (pre ++ (gistUrlKey ++ v) :: post : List Str) ≠ [] := by simp
  have hparse := parseFrontmatter_shape (pre ++ (gistUrlKey ++ v) :: post) body h1 h2 hne
  have hsplitF := splitLines_frontmatter (pre ++ (gistUrlKey ++ v) :: post) h1 hne
  have hdl : ((str "---" :: ((pre ++ (gistUrlKey ++ v) :: post) ++ str "---" :: [[]])).drop 1).dropLast.dropLast
      = pre ++ (gistUrlKey ++ v) :: post := by
    simp only [List.drop_succ_cons, List.drop_zero]
    have hgrp : (pre ++ (gistUrlKey ++ v) :: post) ++ str "---" :: [[]]
        = (((pre ++ (gistUrlKey ++ v) :: post) ++ [str "---"]) ++ [([] : Str)]) := by
      simp
    rw [hgrp, List.dropLast_concat, List.dropLast_concat]
  have hfind : (pre ++ (gistUrlKey ++ v) :: post).findIdx?
      (fun l => gistUrlKey.isPrefixOf l) = some pre.length := by
    rw [findIdx?_append_all_false _ pre _ hpre 0]
    rw [List.findIdx?_cons, if_pos (key_isPrefixOf_append v)]
    simp
  have hset : (pre ++ (gistUrlKey ++ v) :: post).set pre.length (gistUrlKey ++ ' ' :: url)
      = pre ++ (gistUrlKey ++ ' ' :: url) :: post := set_append_length _ _ _ _
  have hfilter : (pre ++ (gistUrlKey ++ ' ' :: url) :: post).filter (fun l => !(trim l).isEmpty)
      = pre.filter (fun l => !(trim l).isEmpty) ++
          (gistUrlKey ++ ' ' :: url) :: post.filter (fun l => !(trim l).isEmpty) := by
    rw [List.filter_append, List.filter_cons, if_pos (newLine_not_blank url)]
  unfold updateFrontmatter
  rw [hparse]
  simp only [Bool.true_and]
  by_cases hskip : (match scanGistUrl (str "---\n" ++
      joinLines (pre ++ (gistUrlKey ++ v) :: post) ++ str "\n---\n") with
    | some cap => trim cap == trim url
    | none => false) = true
  · left
    rw [if_pos hskip]
  · right
    rw [if_neg hskip, if_pos trivial]
    refine ⟨?_, ?_⟩
    · simp only [hsplitF, hdl, hfind, hset, hfilter]
    · rw [List.countP_append, List.countP_cons, if_pos (key_isPrefixOf_append (' ' :: url))]
      have hz : ∀ (zs : List Str), (∀ l ∈ zs, gistUrlKey.isPrefixOf l = false) →
          (zs.filter (fun l => !(trim l).isEmpty)).countP (fun l => gistUrlKey.isPrefixOf l) = 0 := by
        intro zs hzs
        rw [List.countP_eq_zero]
        intro a ha
        have hfz := hzs a (List.mem_filter.mp ha).1
        simp [hfz]
      rw [hz pre hpre, hz post hpost]

/-- Witness for C8_no_field_duplication at a concrete document: the
existing field line is replaced in place and the key count stays 1. -/
theorem C8_no_field_duplication_witness :
    updateFrontmatter (str "---\ntitle: x\ngist-publish-url: https://old\ntags: y\n---\nBody")
        (str "https://new")
      = some (str "---\ntitle: x\ngist-publish-url: https://new\ntags: y\n---\nBody") ∧
    ([str "title: x", str "gist-publish-url: https://new", str "tags: y"]).countP
        (fun l => gistUrlKey.isPrefixOf l) = 1 := by
  have h := C8_no_field_duplication [str "title: x"] [str "tags: y"]
    (str " https://old") (str "Body") (str "https://new")
    (by decide) (by decide) (by decide) (by decide)
  rcases h with h | h
  · exact absurd h (by decide)
  · exact ⟨h.1, h.2⟩

/-! ## Claim C10: unchanged URL means no write -/

theorem hasSub_false_no_occur (pat s : Str) (h : hasSub pat s = false) :
    ∀ i, pat.isPrefixOf (s.drop i) = false := by
  have hnone : findSubIdx pat s = none := by
    unfold hasSub at h
    cases hfi : findSubIdx pat s with
    | none => rfl
    | some k => rw [hfi] at h; simp at h
  clear h
  induction s with
  | nil =>
    intro i
    unfold findSubIdx at hnone
    cases pat with
    | nil => simp at hnone
    | cons p pt => simp [List.isPrefixOf]
  | cons c rest ih =>
    have hsplit : pat.isPrefixOf (c :: rest) = false ∧ findSubIdx pat rest = none := by
      unfold findSubIdx at hnone
      by_cases hp : pat.isPrefixOf (c :: rest)
      · rw [if_pos hp] at hnone
        exact absurd hnone (by simp)
      · refine ⟨by simp [hp], ?_⟩
        rw [if_neg hp] at hnone
        cases hfi : findSubIdx pat rest with
        | none => rfl
        | some k => rw [hfi] at hnone; simp at hnone
    intro i
    cases i with
    | zero => exact hsplit.1
    | succ j => exact ih hsplit.2 j

theorem isPrefixOf_append_newline (pat : Str) (hnl : '\n' ∉ pat) :
    ∀ (x y : Str), pat.isPrefixOf (x ++ '\n' :: y) = true → pat.isPrefixOf x = true := by
  induction pat with
  | nil => intro x y _; cases x <;> simp [List.isPrefixOf]
  | cons p pt ih =>
    intro x y h
    cases x with
    | nil =>
      rw [List.nil_append, List.isPrefixOf_cons₂] at h
      have hp : p = '\n' := by
        by_contra hne
        simp [beq_eq_false_iff_ne.mpr hne] at h
      exact absurd (hp ▸ List.mem_cons_self p pt) hnl
    | cons a xt =>
      rw [List.cons_append, List.isPrefixOf_cons₂] at h
      rw [List.isPrefixOf_cons₂]
      have h1 := (Bool.and_eq_true _ _).mp h
      have h2 := ih (fun hm => hnl (List.mem_cons_of_mem p hm)) xt y h1.2
      simp [h1.1, h2]

theorem noOccur_joinLines (pat : Str) (hne : pat ≠ []) (hnl : '\n' ∉ pat)
    (L : List Str) (hL : ∀ l ∈ L, hasSub pat l = false) (B : Str) :
    ∀ i, i < (joinLines L).length + 1 →
      pat.isPrefixOf ((joinLines L ++ '\n' :: B).drop i) = false := by
  induction L generalizing B with
  | nil =>
    intro i hi
    have hi0 : i = 0 := by simpa [joinLines] using hi
    subst hi0
    cases pat with
    | nil => exact absurd rfl hne
    | cons p pt =>
      have hp : p ≠ '\n' := fun hp => hnl (hp ▸ List.mem_cons_self p pt)
      simp [joinLines, List.isPrefixOf_cons₂, beq_eq_false_iff_ne.mpr hp]
  | cons l L' ih =>
    intro i hi
    by_cases hil : i ≤ l.length
    · -- the candidate occurrence starts inside `l` (or at its end)
      have hstep : ∀ Y : Str, pat.isPrefixOf ((l ++ '\n' :: Y).drop i) = false := by
        intro Y
        rw [List.drop_append_eq_append_drop, Nat.sub_eq_zero_of_le hil, List.drop_zero]
        by_contra hcon
        have hcon' : pat.isPrefixOf (l.drop i ++ '\n' :: Y) = true := by
          simpa using hcon
        have := isPrefixOf_append_newline pat hnl (l.drop i) Y hcon'
        have hfalse := hasSub_false_no_occur pat l (hL l (by simp)) i
        rw [hfalse] at this
        exact Bool.false_ne_true this
      cases L' with
      | nil => simpa [joinLines] using hstep B
      | cons m M =>
        rw [joinLines_cons _ _ (by simp), List.append_assoc, List.cons_append]
        exact hstep _
    · -- the candidate occurrence starts after the newline following `l`
      cases L' with
      | nil =>
        exfalso
        have : (joinLines [l]).length = l.length := by simp [joinLines]
        omega
      | cons m M =>
        rw [joinLines_cons _ _ (by simp), List.append_assoc, List.cons_append]
        have hlen : (joinLines (l :: m :: M)).length
            = l.length + 1 + (joinLines (m :: M)).length := by
          rw [joinLines_cons _ _ (by simp)]
          simp
          omega
        have hj : i - (l.length + 1) < (joinLines (m :: M)).length + 1 := by omega
        have hdrop : ((l ++ '\n' :: (joinLines (m :: M) ++ '\n' :: B)).drop i)
            = (joinLines (m :: M) ++ '\n' :: B).drop (i - (l.length + 1)) := by
          rw [List.drop_append_eq_append_drop]
          have : l.drop i = [] := List.drop_eq_nil_of_le (by omega)
          rw [this, List.nil_append]
          have hsub : i - l.length = (i - (l.length + 1)) + 1 := by omega
          rw [hsub, List.drop_succ_cons]
        rw [hdrop]
        exact ih (fun z hz => hL z (by simp [hz])) _ _ hj

theorem scanGistUrl_append (a b : Str)
    (h : ∀ i, i < a.length → gistUrlKey.isPrefixOf ((a ++ b).drop i) = false) :
    scanGistUrl (a ++ b) = scanGistUrl b := by
  induction a with
  | nil => simp
  | cons c a' ih =>
    have h0 : gistUrlKey.isPrefixOf (c :: (a' ++ b)) = false := by
      have := h 0 (by simp)
      simpa using this
    have hcons : scanGistUrl (c :: (a' ++ b))
        = (if gistUrlKey.isPrefixOf (c :: (a' ++ b)) then
            (match attemptCapture ((c :: (a' ++ b)).drop gistUrlKey.length) with
             | some cap => some cap
             | none => scanGistUrl (a' ++ b))
          else scanGistUrl (a' ++ b)) := rfl
    show scanGistUrl (c :: (a' ++ b)) = scanGistUrl b
    rw [hcons, h0]
    simp only [Bool.false_eq_true, if_false]
    exact ih (fun i hi => by
      have := h (i + 1) (by simp; omega)
      simpa using this)

theorem scanGistUrl_at_key (v tl : Str) (hv : trim v ≠ [])
    (hvnl : ∀ c ∈ v, c ≠ '\n') :
    scanGistUrl ((gistUrlKey ++ ' ' :: v) ++ '\n' :: tl) = some (v.dropWhile jsWs) := by
  have hassoc : (gistUrlKey ++ ' ' :: v) ++ '\n' :: tl
      = gistUrlKey ++ (' ' :: (v ++ '\n' :: tl)) := by
    simp
  have hvne : v.dropWhile jsWs ≠ [] := dropWhile_ne_nil_of_trim_ne_nil v hv
  have hdw : (' ' :: (v ++ '\n' :: tl)).dropWhile jsWs
      = v.dropWhile jsWs ++ '\n' :: tl := by
    rw [List.dropWhile_cons, if_pos (by decide)]
    exact dropWhile_append_of_ne_nil v _ hvne
  have htw : (v.dropWhile jsWs ++ '\n' :: tl).takeWhile (· ≠ '\n') = v.dropWhile jsWs := by
    refine takeWhile_append_stop _ '\n' tl ?_ (by simp)
    intro x hx
    have hxv : x ∈ v := (List.dropWhile_sublist jsWs).mem hx
    simp [hvnl x hxv]
  rw [hassoc]
  show scanGistUrl ('g' :: (str "ist-publish-url:" ++ (' ' :: (v ++ '\n' :: tl))))
    = some (v.dropWhile jsWs)
  unfold scanGistUrl
  rw [show ('g' :: (str "ist-publish-url:" ++ (' ' :: (v ++ '\n' :: tl))))
      = gistUrlKey ++ (' ' :: (v ++ '\n' :: tl)) from rfl]
  rw [key_isPrefixOf_append]
  simp only [if_true]
  rw [List.drop_left]
  unfold attemptCapture
  rw [hdw]
  rw [if_neg (by simp [hvne])]
  rw [htw]

/-- Claim C10: when the frontmatter already contains a
`gist-publish-url:` field line whose trimmed value equals the trimmed new
URL (and no earlier line contains the key), `updateFrontmatter` takes the
early-return path and performs no write at all — the document is left
byte-for-byte untouched, not merely rewritten to an equal normal form. -/
theorem C10_no_write_when_url_unchanged (pre post : List Str) (v body url : Str)
    (h1 : ∀ l ∈ pre ++ (gistUrlKey ++ ' ' :: v) :: post, ∀ c ∈ l, c ≠ '\n')
    (h2 : ∀ l ∈ pre ++ (gistUrlKey ++ ' ' :: v) :: post, trim l ≠ str "---")
    (hpre : ∀ l ∈ pre, hasSub gistUrlKey l = false)
    (heq : trim v = trim url)
    (hturl : trim url ≠ []) :
    updateFrontmatter
      (str "---\n" ++ joinLines (pre ++ (gistUrlKey ++ ' ' :: v) :: post)
        ++ str "\n---\n" ++ body) url = none := by
  have hne : pre ++ (gistUrlKey ++ ' ' :: v) :: post ≠ ([] : List Str) := by simp
  have hparse := parseFrontmatter_shape (pre ++ (gistUrlKey ++ ' ' :: v) :: post) body h1 h2 hne
  have hv : trim v ≠ [] := by rw [heq]; exact hturl
  have hvnl : ∀ c ∈ v, c ≠ '\n' := by
    intro c hc
    exact h1 (gistUrlKey ++ ' ' :: v) (by simp) c (by simp [hc])
  obtain ⟨tl, htl⟩ : ∃ tl : Str,
      joinLines ((gistUrlKey ++ ' ' :: v) :: post) ++ str "\n---\n"
        = (gistUrlKey ++ ' ' :: v) ++ '\n' :: tl := by
    cases post with
    | nil => exact ⟨str "---\n", by simp [joinLines, str]⟩
    | cons m M =>
      refine ⟨joinLines (m :: M) ++ str "\n---\n", ?_⟩
      rw [joinLines_cons _ _ (by simp)]
      simp
  have hsplitF : str "---\n" ++ joinLines (pre ++ (gistUrlKey ++ ' ' :: v) :: post)
        ++ str "\n---\n"
      = (joinLines (str "---" :: pre) ++ ['\n'])
          ++ ((gistUrlKey ++ ' ' :: v) ++ '\n' :: tl) := by
    have ha : str "---\n" ++ joinLines (pre ++ (gistUrlKey ++ ' ' :: v) :: post)
        = joinLines ((str "---" :: pre) ++ (gistUrlKey ++ ' ' :: v) :: post) := by
      rw [show (str "---" :: pre) ++ (gistUrlKey ++ ' ' :: v) :: post
          = str "---" :: (pre ++ (gistUrlKey ++ ' ' :: v) :: post) from rfl]
      rw [joinLines_cons _ _ hne]
      rfl
    rw [ha, joinLines_append _ _ (by simp) (by simp), List.append_assoc, List.cons_append,
      htl, List.append_assoc]
    simp
  have hscan : scanGistUrl (str "---\n" ++
        joinLines (pre ++ (gistUrlKey ++ ' ' :: v) :: post) ++ str "\n---\n")
      = some (v.dropWhile jsWs) := by
    rw [hsplitF]
    rw [scanGistUrl_append _ _ (fun i hi => by
      have hbound : i < (joinLines (str "---" :: pre)).length + 1 := by
        simpa using hi
      have hocc := noOccur_joinLines gistUrlKey (by decide) (by decide)
        (str "---" :: pre)
        (fun l hl => by
          rcases List.mem_cons.mp hl with hl | hl
          · subst hl; decide
          · exact hpre l hl)
        ((gistUrlKey ++ ' ' :: v) ++ '\n' :: tl) i hbound
      rw [← hocc]
      congr 1
      simp)]
    exact scanGistUrl_at_key v tl hv hvnl
  unfold updateFrontmatter
  rw [hparse]
  simp only [Bool.true_and, hscan]
  rw [trim_dropWhile, heq]
  simp

/-- Witness for C10_no_write_when_url_unchanged at a concrete document. -/
theorem C10_no_write_witness :
    updateFrontmatter (str "---\ntitle: x\ngist-publish-url: https://g\n---\nBody")
      (str "https://g") = none :=
  C10_no_write_when_url_unchanged [str "title: x"] [] (str "https://g") (str "Body")
    (str "https://g") (by decide) (by decide) (by decide) (by decide) (by decide)

end GistShare
